import Mathlib

/-!
Verification of the Expander `expander-exec` shell (`gkr/src/exec.rs`): the
field-type detector, the proof/claimed-value codec, the one-shot `prove` and
`verify` command paths, and the serving subsystem's `/verify` handler and
circuit-guard locking discipline.

Byte buffers are modelled as `List Nat` (each entry one byte), machine
integers as `Nat`, fallible operations as `Except`/`Option`, and process
aborts (Rust `panic!` via `expect`/`unwrap`/`assert!`/out-of-bounds slicing)
as explicit outcome constructors.
-/

namespace Expander

/-- Little-endian encoding of `n` into exactly `w` bytes (each `< 256`),
as produced by `u64::to_le_bytes` and friends; `n` is truncated mod `2^(8*w)`. -/
def toLeBytes : Nat → Nat → List Nat
  | _, 0 => []
  | n, w + 1 => n % 256 :: toLeBytes (n / 256) w

/-- Little-endian decoding of a byte list into a `Nat`,
as performed by `u64::from_le_bytes`. -/
def fromLeBytes : List Nat → Nat
  | [] => 0
  | b :: rest => b + 256 * fromLeBytes rest

/-- Modelled from the spec: the error type `FieldSerdeError` of the `arith`
crate (outside `src/`); deserialization failures are its only inhabitant used
by this slice. -/
inductive FieldSerdeError where
  | deserializeFailure
deriving DecidableEq

/-- Modelled from the spec: `transcript::Proof` (outside `src/`) is an opaque
byte sequence with a self-delimiting serialization. -/
structure Proof where
  bytes : List Nat
deriving DecidableEq

/-- Modelled from the spec: the proof's self-delimiting serialization — an
8-byte little-endian length prefix followed by the raw proof bytes. -/
def Proof.serialize_into (p : Proof) : List Nat :=
  toLeBytes p.bytes.length 8 ++ p.bytes

/-- Modelled from the spec: the inverse read, destructively consuming the
self-delimiting proof from the front of the buffer and returning the unread
remainder; truncated input yields a deserialization error, never a panic. -/
def Proof.deserialize_from (b : List Nat) : Except FieldSerdeError (Proof × List Nat) :=
  if 8 ≤ b.length then
    if fromLeBytes (b.take 8) ≤ (b.drop 8).length then
      .ok (⟨(b.drop 8).take (fromLeBytes (b.take 8))⟩,
           (b.drop 8).drop (fromLeBytes (b.take 8)))
    else .error .deserializeFailure
  else .error .deserializeFailure

/-- Modelled from the spec: the claimed value's fixed-width serialization — a
field element rendered as exactly `w` bytes, little-endian. -/
def serializeField (w v : Nat) : List Nat := toLeBytes v w

/-- Modelled from the spec: fixed-width field-element deserialization,
consuming exactly `w` bytes from the front of the buffer; truncated input
yields a deserialization error, never a panic. -/
def deserializeField (w : Nat) (b : List Nat) : Except FieldSerdeError (Nat × List Nat) :=
  if w ≤ b.length then .ok (fromLeBytes (b.take w), b.drop w)
  else .error .deserializeFailure

/-- Encoder `dump_proof_and_claimed_v` (exec.rs lines 18-28): the proof's
self-delimiting serialization followed immediately by the claimed value's
fixed-width serialization, no outer envelope. Writing into an in-memory
buffer cannot fail, so the model is total. -/
def dump_proof_and_claimed_v (w : Nat) (proof : Proof) (claimed_v : Nat) : List Nat :=
  proof.serialize_into ++ serializeField w claimed_v

/-- Decoder `load_proof_and_claimed_v` (exec.rs lines 30-39): reads the proof
then the claimed value from a cursor over the buffer, propagating
deserialization errors with `?`; trailing bytes after the field element are
left unread. -/
def load_proof_and_claimed_v (w : Nat) (bytes : List Nat) :
    Except FieldSerdeError (Proof × Nat) :=
  match Proof.deserialize_from bytes with
  | .error e => .error e
  | .ok (proof, rest) =>
    match deserializeField w rest with
    | .error e => .error e
    | .ok (claimed_v, _) => .ok (proof, claimed_v)

/-- Rust range slicing `b[s..e]`: `some` of the sub-buffer when the range is
in bounds, `none` when the slice operation would panic. -/
def sliceRange (b : List Nat) (s e : Nat) : Option (List Nat) :=
  if s ≤ e ∧ e ≤ b.length then some ((b.drop s).take (e - s)) else none

/-- Framing of a `/verify` request body per the wire protocol: 8-byte
little-endian witness length, 8-byte little-endian proof length, witness
bytes, proof bytes. -/
def frameVerifyBody (w p : List Nat) : List Nat :=
  toLeBytes w.length 8 ++ toLeBytes p.length 8 ++ w ++ p

/-- Unframing performed by the `/verify` handler (exec.rs lines 144-154):
reads the two little-endian length prefixes and slices the witness and proof
byte ranges out of the body; `none` models the panic on an out-of-bounds
slice. -/
def unframeVerifyBody (b : List Nat) : Option (List Nat × List Nat) :=
  match sliceRange b 0 8 with
  | none => none
  | some lenW =>
    match sliceRange b 8 16 with
    | none => none
    | some lenP =>
      match sliceRange b 16 (16 + fromLeBytes lenW) with
      | none => none
      | some w =>
        match sliceRange b (16 + fromLeBytes lenW)
            (16 + fromLeBytes lenW + fromLeBytes lenP) with
        | none => none
        | some p => some (w, p)

/-- The closed set of supported field configurations (`config::FieldType`). -/
inductive FieldType where
  | M31
  | BN254
  | GF2
deriving DecidableEq

/-- Modelled from the spec: `config::SENTINEL_M31` (outside `src/`), a fixed
32-byte constant identifying the M31 field; the three sentinels are pairwise
distinct. -/
def SENTINEL_M31 : List Nat := 1 :: List.replicate 31 0

/-- Modelled from the spec: `config::SENTINEL_BN254` (outside `src/`), a
fixed 32-byte constant identifying the BN254 field. -/
def SENTINEL_BN254 : List Nat := 2 :: List.replicate 31 0

/-- Modelled from the spec: `config::SENTINEL_GF2` (outside `src/`), a fixed
32-byte constant identifying the GF2 field. -/
def SENTINEL_GF2 : List Nat := 3 :: List.replicate 31 0

/-- Outcome of field-type detection: a detected tag, a reported fatal exit
with the given process exit code (`println!` then `process::exit`), or a
panic (`expect` failure or out-of-bounds slice). -/
inductive DetectOutcome where
  | ok (t : FieldType)
  | fatalExit (code : Nat)
  | panic
deriving DecidableEq

/-- Detector `detect_field_type_from_circuit_file` (exec.rs lines 41-54)
applied to the bytes of the circuit file: slices bytes `8..40` (panicking
when the file is shorter than 40 bytes), then matches the 32-byte span
against the three sentinels; an unrecognized span prints a diagnostic and
exits with status 1. -/
def detect_field_type_from_circuit_file (bytes : List Nat) : DetectOutcome :=
  if bytes.length < 40 then .panic
  else
    if (bytes.drop 8).take 32 = SENTINEL_M31 then .ok .M31
    else if (bytes.drop 8).take 32 = SENTINEL_BN254 then .ok .BN254
    else if (bytes.drop 8).take 32 = SENTINEL_GF2 then .ok .GF2
    else .fatalExit 1

/-- Outcome of a one-shot command path: normal completion with the lines it
printed and its process exit code, or a panic (`expect`/`assert!` failure),
which terminates the process abnormally with a non-zero status. -/
inductive ProcOutcome where
  | normal (printed : List String) (exitCode : Nat)
  | panic
deriving DecidableEq

/-- Whether an outcome is a normal completion with exit code 0. -/
def ProcOutcome.isNormalExitZero : ProcOutcome → Bool
  | .normal _ 0 => true
  | _ => false

/-- One-shot `verify` command tail (exec.rs lines 95-101): decode the proof
file with the codec (`expect` escalates a decode error to a panic), then
`assert!(verifier.verify(..))` — a false verify result fails the assertion
(panic), a true one prints "success" and completes normally with exit code
0. `verify` abstracts the verifier call on the already-loaded circuit. -/
def run_verify_command (w : Nat) (proofFileBytes : List Nat)
    (verify : Proof → Nat → Bool) : ProcOutcome :=
  match load_proof_and_claimed_v w proofFileBytes with
  | .error _ => .panic
  | .ok (proof, claimed_v) =>
    if verify proof claimed_v then .normal ["success"] 0 else .panic

/-- Circuit state relevant to this slice: static topology, witness
assignment, and public-input sequence (`circuit::Circuit`, with topology and
witness kept as opaque byte data). -/
structure Circuit where
  topology : List Nat
  witness : List Nat
  public_input : List Nat
deriving DecidableEq

/-- One iteration of the replication loop body (exec.rs lines 89-93):
appends a copy of the first `n` public inputs of the current sequence to its
end. -/
def replicationStep (n : Nat) (pi : List Nat) : List Nat :=
  pi ++ pi.take n

/-- Public-input replication of the `verify` command (exec.rs lines 86-94):
with `n` the original public-input length, the loop `for _ in 1..mpi_size`
runs the append step `mpi_size - 1` times; nothing else in the circuit is
touched. -/
def replicatePublicInput (c : Circuit) (mpi_size : Nat) : Circuit :=
  { c with public_input :=
      (replicationStep c.public_input.length)^[mpi_size - 1] c.public_input }

/-- Result of the one-shot `prove` command: the computed claimed value and
proof, plus the list of file writes performed (path, contents). -/
structure ProveRun where
  claimed_v : Nat
  proof : Proof
  writes : List (String × List Nat)

/-- One-shot `prove` command tail (exec.rs lines 63-77): runs the prover on
the loaded circuit, then writes the encoded (proof, claimed value) to the
output path only when this process is the MPI root; a non-root participant
computes the same result but performs no write. `prover` abstracts
`Prover::prove` on the loaded circuit. -/
def run_prove_command (w : Nat) (prover : Circuit → Nat × Proof) (c : Circuit)
    (is_root : Bool) (output_file : String) : ProveRun :=
  { claimed_v := (prover c).1
    proof := (prover c).2
    writes :=
      if is_root then
        [(output_file, dump_proof_and_claimed_v w (prover c).2 (prover c).1)]
      else [] }

/-- An HTTP response as produced by the serving subsystem: status code and
textual body. -/
structure HttpResponse where
  status : Nat
  body : String
deriving DecidableEq

/-- The `/verify` handler (exec.rs lines 139-166): unframes the request body
(`none` models the panic on malformed framing or a failed decode `unwrap`),
decodes the proof bytes with the codec, runs the verifier on the witness
bytes loaded into the shared circuit, and replies with status 200 and body
"success" or "failure" according to the boolean verify result. `verify`
abstracts the verifier call, taking the witness bytes and decoded proof and
claimed value. -/
def serve_verify_handler (w : Nat) (body : List Nat)
    (verify : List Nat → Proof → Nat → Bool) : Option HttpResponse :=
  match unframeVerifyBody body with
  | none => none
  | some (witnessBytes, proofBytes) =>
    match load_proof_and_claimed_v w proofBytes with
    | .error _ => none
    | .ok (proof, claimed_v) =>
      some { status := 200
             body := if verify witnessBytes proof claimed_v then "success" else "failure" }

/-- State of the serving subsystem's circuit-guard discipline for two
concurrent requests A and B (each a `/prove` or `/verify` handler — both
follow the same discipline, exec.rs lines 130-137 and 156-166). Program
counters: 0 = not started, 1 = circuit guard acquired, 2 = witness loaded,
3 = prove/verify call completed, 4 = guard released (done). `circuitOwner`
records which request currently holds the shared circuit Mutex
(`some true` = A, `some false` = B). -/
structure SrvState where
  pcA : Nat
  pcB : Nat
  circuitOwner : Option Bool
deriving DecidableEq

/-- Interleaving small-step semantics of the two handler tasks. Acquiring
the circuit Mutex is enabled only when no task holds it (Mutex semantics);
loading the witness and running prove/verify are the in-critical-section
steps; release drops the guard at the end of the handler closure. -/
inductive SrvStep : SrvState → SrvState → Prop where
  | acquireA (s : SrvState) : s.pcA = 0 → s.circuitOwner = none →
      SrvStep s { s with pcA := 1, circuitOwner := some true }
  | loadWitnessA (s : SrvState) : s.pcA = 1 → SrvStep s { s with pcA := 2 }
  | computeA (s : SrvState) : s.pcA = 2 → SrvStep s { s with pcA := 3 }
  | releaseA (s : SrvState) : s.pcA = 3 →
      SrvStep s { s with pcA := 4, circuitOwner := none }
  | acquireB (s : SrvState) : s.pcB = 0 → s.circuitOwner = none →
      SrvStep s { s with pcB := 1, circuitOwner := some false }
  | loadWitnessB (s : SrvState) : s.pcB = 1 → SrvStep s { s with pcB := 2 }
  | computeB (s : SrvState) : s.pcB = 2 → SrvStep s { s with pcB := 3 }
  | releaseB (s : SrvState) : s.pcB = 3 →
      SrvStep s { s with pcB := 4, circuitOwner := none }

/-- States reachable from the service's initial state (no request started,
circuit guard free) under any interleaving. -/
inductive SrvReachable : SrvState → Prop where
  | init : SrvReachable ⟨0, 0, none⟩
  | step {s s' : SrvState} : SrvReachable s → SrvStep s s' → SrvReachable s'

/-- A task is in its critical section when it has acquired the circuit guard
and not yet released it. -/
def inCritical (pc : Nat) : Prop := 1 ≤ pc ∧ pc ≤ 3

/-- Inductive invariant of the lock discipline: a task inside its critical
section owns the circuit guard, and program counters stay in range. -/
def SrvInv (s : SrvState) : Prop :=
  (inCritical s.pcA → s.circuitOwner = some true) ∧
  (inCritical s.pcB → s.circuitOwner = some false) ∧
  s.pcA ≤ 4 ∧ s.pcB ≤ 4

/-! Helper lemmas about the little-endian byte encoding and the codec. -/

theorem toLeBytes_length (n w : Nat) : (toLeBytes n w).length = w := by
  induction w generalizing n with
  | zero => rfl
  | succ w ih => simp [toLeBytes, ih]

theorem fromLeBytes_toLeBytes_of_lt {n w : Nat} (h : n < 2 ^ (8 * w)) :
    fromLeBytes (toLeBytes n w) = n := by
  induction w generalizing n with
  | zero =>
    simp only [toLeBytes, fromLeBytes]
    omega
  | succ w ih =>
    have hpow : 2 ^ (8 * (w + 1)) = 2 ^ (8 * w) * 256 := by
      rw [Nat.mul_succ, pow_add]
      norm_num
    have hd : n / 256 < 2 ^ (8 * w) := by
      apply Nat.div_lt_of_lt_mul
      rw [Nat.mul_comm]
      rw [hpow] at h
      exact h
    simp only [toLeBytes, fromLeBytes, ih hd]
    omega

theorem fromLeBytes_toLeBytes8 {n : Nat} (h : n < 2 ^ 64) :
    fromLeBytes (toLeBytes n 8) = n :=
  fromLeBytes_toLeBytes_of_lt (by norm_num; exact h)

theorem deserialize_from_serialize_into (p : Proof) (extra : List Nat)
    (hp : p.bytes.length < 2 ^ 64) :
    Proof.deserialize_from (p.serialize_into ++ extra) = .ok (p, extra) := by
  have hlen : (toLeBytes p.bytes.length 8).length = 8 := toLeBytes_length _ 8
  have hassoc : p.serialize_into ++ extra
      = toLeBytes p.bytes.length 8 ++ (p.bytes ++ extra) := by
    simp [Proof.serialize_into]
  have htake : (toLeBytes p.bytes.length 8 ++ (p.bytes ++ extra)).take 8
      = toLeBytes p.bytes.length 8 := by
    conv_lhs => rw [← hlen]
    exact List.take_left _ _
  have hdrop : (toLeBytes p.bytes.length 8 ++ (p.bytes ++ extra)).drop 8
      = p.bytes ++ extra := by
    conv_lhs => rw [← hlen]
    exact List.drop_left _ _
  have h1 : 8 ≤ (toLeBytes p.bytes.length 8 ++ (p.bytes ++ extra)).length := by
    simp [hlen]
  have h2 : p.bytes.length ≤ (p.bytes ++ extra).length := by simp
  rw [hassoc]
  unfold Proof.deserialize_from
  rw [htake, hdrop, fromLeBytes_toLeBytes8 hp, if_pos h1, if_pos h2,
      List.take_left, List.drop_left]

theorem deserializeField_serializeField {w v : Nat} (hv : v < 2 ^ (8 * w)) :
    deserializeField w (serializeField w v) = .ok (v, []) := by
  have hl : (toLeBytes v w).length = w := toLeBytes_length v w
  unfold deserializeField serializeField
  rw [if_pos hl.ge, List.take_of_length_le hl.le,
      List.drop_eq_nil_of_le hl.le, fromLeBytes_toLeBytes_of_lt hv]

theorem load_eq_error {w : Nat} {bytes : List Nat} {e : FieldSerdeError}
    (hde : Proof.deserialize_from bytes = .error e) :
    load_proof_and_claimed_v w bytes = .error e := by
  unfold load_proof_and_claimed_v
  rw [hde]

theorem load_eq_ok {w : Nat} {bytes rest : List Nat} {p : Proof}
    (hde : Proof.deserialize_from bytes = .ok (p, rest)) :
    load_proof_and_claimed_v w bytes
      = match deserializeField w rest with
        | .error e => .error e
        | .ok (claimed_v, _) => .ok (p, claimed_v) := by
  unfold load_proof_and_claimed_v
  rw [hde]

/-- C2: decoding the byte buffer produced by encoding a (Proof, ClaimedValue)
pair yields back exactly the same proof and claimed value, for every pair
whose proof fits the 8-byte length prefix and whose claimed value fits the
`w`-byte fixed width. -/
theorem load_dump_roundtrip (w : Nat) (proof : Proof) (claimed_v : Nat)
    (hp : proof.bytes.length < 2 ^ 64) (hv : claimed_v < 2 ^ (8 * w)) :
    load_proof_and_claimed_v w (dump_proof_and_claimed_v w proof claimed_v)
      = .ok (proof, claimed_v) := by
  unfold dump_proof_and_claimed_v
  rw [load_eq_ok (deserialize_from_serialize_into proof (serializeField w claimed_v) hp),
      deserializeField_serializeField hv]

/-- Witness for C2 at a concrete proof and claimed value. -/
theorem load_dump_roundtrip_witness :
    load_proof_and_claimed_v 4 (dump_proof_and_claimed_v 4 ⟨[7, 9]⟩ 300)
      = .ok (⟨[7, 9]⟩, 300) :=
  load_dump_roundtrip 4 ⟨[7, 9]⟩ 300 (by decide) (by decide)

/-- C8: the decoder is a total function into a result type — on every byte
buffer it returns either a decoded pair or a deserialization error, never a
panic; the error branch is taken exactly on the buffers too short to contain
the self-delimiting proof followed by a `w`-byte field element. -/
theorem load_total_error_iff (w : Nat) (bytes : List Nat) :
    (load_proof_and_claimed_v w bytes = .error FieldSerdeError.deserializeFailure
        ↔ bytes.length < 8 + fromLeBytes (bytes.take 8) + w) ∧
    (8 + fromLeBytes (bytes.take 8) + w ≤ bytes.length →
        ∃ pv, load_proof_and_claimed_v w bytes = .ok pv) := by
  have hdl : (bytes.drop 8).length = bytes.length - 8 := by simp
  by_cases h1 : 8 ≤ bytes.length
  · by_cases h2 : fromLeBytes (bytes.take 8) ≤ (bytes.drop 8).length
    · have hde : Proof.deserialize_from bytes
          = .ok (⟨(bytes.drop 8).take (fromLeBytes (bytes.take 8))⟩,
                 (bytes.drop 8).drop (fromLeBytes (bytes.take 8))) := by
        unfold Proof.deserialize_from
        rw [if_pos h1, if_pos h2]
      have hdrl : ((bytes.drop 8).drop (fromLeBytes (bytes.take 8))).length
          = bytes.length - 8 - fromLeBytes (bytes.take 8) := by
        simp [List.length_drop]
        omega
      by_cases h3 : w ≤ ((bytes.drop 8).drop (fromLeBytes (bytes.take 8))).length
      · have hload : load_proof_and_claimed_v w bytes
            = .ok (⟨(bytes.drop 8).take (fromLeBytes (bytes.take 8))⟩,
                   fromLeBytes
                     (((bytes.drop 8).drop (fromLeBytes (bytes.take 8))).take w)) := by
          rw [load_eq_ok hde]
          unfold deserializeField
          rw [if_pos h3]
        rw [hload]
        constructor
        · constructor
          · intro hcontra
            exact absurd hcontra (by simp)
          · intro hlt
            omega
        · intro _
          exact ⟨_, rfl⟩
      · have hload : load_proof_and_claimed_v w bytes
            = .error FieldSerdeError.deserializeFailure := by
          rw [load_eq_ok hde]
          unfold deserializeField
          rw [if_neg h3]
        rw [hload]
        constructor
        · constructor
          · intro _
            omega
          · intro _
            rfl
        · intro hle
          exfalso
          omega
    · have hload : load_proof_and_claimed_v w bytes
          = .error FieldSerdeError.deserializeFailure := by
        apply load_eq_error
        unfold Proof.deserialize_from
        rw [if_pos h1, if_neg h2]
      rw [hload]
      constructor
      · constructor
        · intro _
          omega
        · intro _
          rfl
      · intro hle
        exfalso
        omega
  · have hload : load_proof_and_claimed_v w bytes
        = .error FieldSerdeError.deserializeFailure := by
      apply load_eq_error
      unfold Proof.deserialize_from
      rw [if_neg h1]
    rw [hload]
    constructor
    · constructor
      · intro _
        omega
      · intro _
        rfl
    · intro hle
      exfalso
      omega

theorem sliceRange_exact (l₁ l₂ l₃ : List Nat) :
    sliceRange (l₁ ++ (l₂ ++ l₃)) l₁.length (l₁.length + l₂.length) = some l₂ := by
  unfold sliceRange
  rw [if_pos ⟨Nat.le_add_right _ _, by simp [List.length_append]⟩]
  rw [List.drop_left, Nat.add_sub_cancel_left, List.take_left]

theorem sliceRange_exact' (l₁ l₂ l₃ : List Nat) (s e : Nat)
    (hs : l₁.length = s) (he : s + l₂.length = e) :
    sliceRange (l₁ ++ (l₂ ++ l₃)) s e = some l₂ := by
  subst hs
  subst he
  exact sliceRange_exact l₁ l₂ l₃

/-- C4: framing a witness buffer and a proof buffer per the wire protocol and
unframing with the `/verify` body parser yields back exactly both buffers,
for all lengths (including zero) that fit the 8-byte length prefixes. -/
theorem unframe_frame_roundtrip (w p : List Nat)
    (hw : w.length < 2 ^ 64) (hp : p.length < 2 ^ 64) :
    unframeVerifyBody (frameVerifyBody w p) = some (w, p) := by
  have hlw : (toLeBytes w.length 8).length = 8 := toLeBytes_length _ 8
  have hlp : (toLeBytes p.length 8).length = 8 := toLeBytes_length _ 8
  have hs1 : sliceRange (toLeBytes w.length 8 ++ (toLeBytes p.length 8 ++ (w ++ p)))
      0 8 = some (toLeBytes w.length 8) := by
    have h := sliceRange_exact' [] (toLeBytes w.length 8)
      (toLeBytes p.length 8 ++ (w ++ p)) 0 8 rfl (by rw [Nat.zero_add, hlw])
    simpa using h
  have hs2 : sliceRange (toLeBytes w.length 8 ++ (toLeBytes p.length 8 ++ (w ++ p)))
      8 16 = some (toLeBytes p.length 8) :=
    sliceRange_exact' _ _ _ 8 16 hlw (by rw [hlp])
  have hs3 : sliceRange (toLeBytes w.length 8 ++ (toLeBytes p.length 8 ++ (w ++ p)))
      16 (16 + w.length) = some w := by
    have h := sliceRange_exact' (toLeBytes w.length 8 ++ toLeBytes p.length 8) w p
      16 (16 + w.length) (by simp only [List.length_append, hlw, hlp]) rfl
    simpa [List.append_assoc] using h
  have hs4 : sliceRange (toLeBytes w.length 8 ++ (toLeBytes p.length 8 ++ (w ++ p)))
      (16 + w.length) (16 + w.length + p.length) = some p := by
    have h := sliceRange_exact' ((toLeBytes w.length 8 ++ toLeBytes p.length 8) ++ w) p []
      (16 + w.length) (16 + w.length + p.length)
      (by simp only [List.length_append, hlw, hlp]) rfl
    simpa [List.append_assoc] using h
  show unframeVerifyBody
      (toLeBytes w.length 8 ++ (toLeBytes p.length 8 ++ (w ++ p))) = some (w, p)
  simp only [unframeVerifyBody, hs1, hs2, fromLeBytes_toLeBytes8 hw,
    fromLeBytes_toLeBytes8 hp, hs3, hs4]

/-- Witness for C4 at a concrete witness buffer and a zero-length proof
buffer. -/
theorem unframe_frame_roundtrip_witness :
    unframeVerifyBody (frameVerifyBody [5] []) = some ([5], []) :=
  unframe_frame_roundtrip [5] [] (by decide) (by decide)

/-- C3: on any circuit file long enough to contain the sentinel span, a
bytes-8..40 span equal to one of the three sentinel constants is detected as
the corresponding field type, and any other 32-byte span is fatal — the
process reports it and exits with the non-zero status 1. -/
theorem detect_field_type_spec (bytes : List Nat) (h : 40 ≤ bytes.length) :
    ((bytes.drop 8).take 32 = SENTINEL_M31 →
        detect_field_type_from_circuit_file bytes = .ok .M31) ∧
    ((bytes.drop 8).take 32 = SENTINEL_BN254 →
        detect_field_type_from_circuit_file bytes = .ok .BN254) ∧
    ((bytes.drop 8).take 32 = SENTINEL_GF2 →
        detect_field_type_from_circuit_file bytes = .ok .GF2) ∧
    ((bytes.drop 8).take 32 ≠ SENTINEL_M31 →
      (bytes.drop 8).take 32 ≠ SENTINEL_BN254 →
      (bytes.drop 8).take 32 ≠ SENTINEL_GF2 →
        detect_field_type_from_circuit_file bytes = .fatalExit 1) := by
  unfold detect_field_type_from_circuit_file
  rw [if_neg (by omega)]
  refine ⟨?_, ?_, ?_, ?_⟩
  · intro hm
    rw [hm]
    decide
  · intro hb
    rw [hb]
    decide
  · intro hg
    rw [hg]
    decide
  · intro h1 h2 h3
    rw [if_neg h1, if_neg h2, if_neg h3]

/-- Witness for C3 on a concrete 40-byte file carrying the M31 sentinel at
bytes 8..40. -/
theorem detect_field_type_spec_witness :
    (((List.replicate 8 0 ++ SENTINEL_M31).drop 8).take 32 = SENTINEL_M31 →
        detect_field_type_from_circuit_file (List.replicate 8 0 ++ SENTINEL_M31)
          = .ok .M31) ∧
    (((List.replicate 8 0 ++ SENTINEL_M31).drop 8).take 32 = SENTINEL_BN254 →
        detect_field_type_from_circuit_file (List.replicate 8 0 ++ SENTINEL_M31)
          = .ok .BN254) ∧
    (((List.replicate 8 0 ++ SENTINEL_M31).drop 8).take 32 = SENTINEL_GF2 →
        detect_field_type_from_circuit_file (List.replicate 8 0 ++ SENTINEL_M31)
          = .ok .GF2) ∧
    (((List.replicate 8 0 ++ SENTINEL_M31).drop 8).take 32 ≠ SENTINEL_M31 →
      ((List.replicate 8 0 ++ SENTINEL_M31).drop 8).take 32 ≠ SENTINEL_BN254 →
      ((List.replicate 8 0 ++ SENTINEL_M31).drop 8).take 32 ≠ SENTINEL_GF2 →
        detect_field_type_from_circuit_file (List.replicate 8 0 ++ SENTINEL_M31)
          = .fatalExit 1) :=
  detect_field_type_spec (List.replicate 8 0 ++ SENTINEL_M31) (by decide)

/-- C10: on any readable circuit file shorter than 40 bytes, the slice of
bytes 8..40 is out of bounds and detection panics, aborting the process. -/
theorem detect_short_file_panics (bytes : List Nat) (h : bytes.length < 40) :
    detect_field_type_from_circuit_file bytes = .panic := by
  unfold detect_field_type_from_circuit_file
  rw [if_pos h]

/-- Witness for C10 on the empty file. -/
theorem detect_short_file_panics_witness :
    detect_field_type_from_circuit_file [] = .panic :=
  detect_short_file_panics [] (by decide)

/-- C1 counterexample: with a proof file that decodes successfully and a
verifier returning false, the one-shot `verify` command ends in the failed
`assert!` panic — it does not complete normally with exit code 0, and no
failure line is printed. -/
theorem run_verify_false_not_normal :
    run_verify_command 1 (dump_proof_and_claimed_v 1 ⟨[]⟩ 0) (fun _ _ => false)
        = ProcOutcome.panic ∧
    (run_verify_command 1 (dump_proof_and_claimed_v 1 ⟨[]⟩ 0)
        (fun _ _ => false)).isNormalExitZero = false :=
  ⟨rfl, rfl⟩

/-- C1 (amended): for the one-shot `verify` command on a proof file that
decodes successfully, a true verify result prints "success" and completes
normally with exit code 0, while a false verify result fails the `assert!`
and the process panics — terminating abnormally with a non-zero status
rather than printing a failure outcome. -/
theorem run_verify_outcome (w : Nat) (bytes : List Nat)
    (verify : Proof → Nat → Bool) (p : Proof) (v : Nat)
    (h : load_proof_and_claimed_v w bytes = .ok (p, v)) :
    run_verify_command w bytes verify
      = if verify p v then ProcOutcome.normal ["success"] 0
        else ProcOutcome.panic := by
  unfold run_verify_command
  rw [h]

/-- Witness for C1 (amended) at a concrete decodable proof file and a
verifier returning true. -/
theorem run_verify_outcome_witness :
    run_verify_command 1 (dump_proof_and_claimed_v 1 ⟨[]⟩ 0) (fun _ _ => true)
      = ProcOutcome.normal ["success"] 0 := by
  simpa using run_verify_outcome 1 (dump_proof_and_claimed_v 1 ⟨[]⟩ 0)
    (fun _ _ => true) ⟨[]⟩ 0 (by rfl)

theorem serve_verify_handler_eq {w : Nat} {body wit pr : List Nat}
    {verify : List Nat → Proof → Nat → Bool}
    (hframe : unframeVerifyBody body = some (wit, pr)) :
    serve_verify_handler w body verify
      = match load_proof_and_claimed_v w pr with
        | .error _ => none
        | .ok (p, v) =>
          some ⟨200, if verify wit p v then "success" else "failure"⟩ := by
  unfold serve_verify_handler
  rw [hframe]

/-- C5: for every well-formed `/verify` request (the body unframes and the
proof bytes decode), the handler responds with HTTP status 200 and body
exactly "success" when the verifier returns true and exactly "failure" when
it returns false; a false outcome is never an HTTP-level error. -/
theorem serve_verify_handler_response (w : Nat) (body : List Nat)
    (verify : List Nat → Proof → Nat → Bool) (wit pr : List Nat)
    (p : Proof) (v : Nat)
    (hframe : unframeVerifyBody body = some (wit, pr))
    (hload : load_proof_and_claimed_v w pr = .ok (p, v)) :
    serve_verify_handler w body verify
      = some ⟨200, if verify wit p v then "success" else "failure"⟩ := by
  rw [serve_verify_handler_eq hframe, hload]

/-- Witness for C5 at a concrete framed request and a verifier returning
false: the response is still status 200, with body "failure". -/
theorem serve_verify_handler_response_witness :
    serve_verify_handler 1
        (frameVerifyBody [5] (dump_proof_and_claimed_v 1 ⟨[]⟩ 0))
        (fun _ _ _ => false)
      = some ⟨200, "failure"⟩ := by
  simpa using serve_verify_handler_response 1
    (frameVerifyBody [5] (dump_proof_and_claimed_v 1 ⟨[]⟩ 0))
    (fun _ _ _ => false) [5] (dump_proof_and_claimed_v 1 ⟨[]⟩ 0) ⟨[]⟩ 0
    (by rfl) (by rfl)

theorem replicationStep_iterate (pi : List Nat) (k : Nat) :
    (replicationStep pi.length)^[k] pi = (List.replicate (k + 1) pi).flatten := by
  induction k with
  | zero => simp
  | succ k ih =>
    rw [Function.iterate_succ_apply', ih]
    unfold replicationStep
    have htake : ((List.replicate (k + 1) pi).flatten).take pi.length = pi := by
      rw [List.replicate_succ, List.flatten_cons]
      exact List.take_left _ _
    rw [htake]
    conv_rhs => rw [List.replicate_succ' (k + 1)]
    rw [List.flatten_append]
    simp

/-- C6: with a replication count `c > 1` supplied, the `verify` command's
public-input sequence after the replication loop equals the original block
repeated `c` times, and the circuit's topology and witness are not modified
by this step. -/
theorem replicatePublicInput_spec (c : Circuit) (count : Nat) (h : 1 < count) :
    (replicatePublicInput c count).public_input
        = (List.replicate count c.public_input).flatten ∧
    (replicatePublicInput c count).topology = c.topology ∧
    (replicatePublicInput c count).witness = c.witness := by
  refine ⟨?_, rfl, rfl⟩
  show (replicationStep c.public_input.length)^[count - 1] c.public_input
      = (List.replicate count c.public_input).flatten
  rw [replicationStep_iterate, show count - 1 + 1 = count from by omega]

/-- Witness for C6 at a concrete circuit and replication count 2. -/
theorem replicatePublicInput_spec_witness :
    (replicatePublicInput ⟨[1], [2], [3, 4]⟩ 2).public_input
        = (List.replicate 2 [3, 4]).flatten ∧
    (replicatePublicInput ⟨[1], [2], [3, 4]⟩ 2).topology = [1] ∧
    (replicatePublicInput ⟨[1], [2], [3, 4]⟩ 2).witness = [2] :=
  replicatePublicInput_spec ⟨[1], [2], [3, 4]⟩ 2 (by decide)

/-- C7: the one-shot `prove` command writes the encoded (proof, claimed
value) artifact to the output path exactly when the process is the MPI root;
a non-root participant computes the same claimed value and proof but
performs no file write. -/
theorem prove_writes_iff_root (w : Nat) (prover : Circuit → Nat × Proof)
    (c : Circuit) (is_root : Bool) (out : String) :
    (((run_prove_command w prover c is_root out).writes ≠ []) ↔ is_root = true) ∧
    (run_prove_command w prover c true out).writes
        = [(out, dump_proof_and_claimed_v w (prover c).2 (prover c).1)] ∧
    (run_prove_command w prover c false out).writes = [] ∧
    (run_prove_command w prover c is_root out).claimed_v = (prover c).1 ∧
    (run_prove_command w prover c is_root out).proof = (prover c).2 := by
  unfold run_prove_command
  cases is_root <;> simp

theorem srv_inv_of_reachable {s : SrvState} (h : SrvReachable s) : SrvInv s := by
  induction h with
  | init =>
    refine ⟨?_, ?_, ?_, ?_⟩ <;> simp [inCritical]
  | step hr hstep ih =>
    obtain ⟨ihA, ihB, ihpa, ihpb⟩ := ih
    cases hstep with
    | acquireA hpc hown =>
      refine ⟨fun _ => rfl, fun hc => ?_, by show (1 : Nat) ≤ 4; decide, ihpb⟩
      have h2 := ihB hc
      rw [hown] at h2
      exact absurd h2 (by simp)
    | loadWitnessA hpc =>
      exact ⟨fun _ => ihA ⟨by omega, by omega⟩, ihB, by show (2 : Nat) ≤ 4; decide, ihpb⟩
    | computeA hpc =>
      exact ⟨fun _ => ihA ⟨by omega, by omega⟩, ihB, by show (3 : Nat) ≤ 4; decide, ihpb⟩
    | releaseA hpc =>
      refine ⟨fun hc => absurd hc (by simp [inCritical]), fun hc => ?_,
        by show (4 : Nat) ≤ 4; decide, ihpb⟩
      have h1 := ihA ⟨by omega, by omega⟩
      have h2 := ihB hc
      rw [h1] at h2
      exact absurd h2 (by simp)
    | acquireB hpc hown =>
      refine ⟨fun hc => ?_, fun _ => rfl, ihpa, by show (1 : Nat) ≤ 4; decide⟩
      have h2 := ihA hc
      rw [hown] at h2
      exact absurd h2 (by simp)
    | loadWitnessB hpc =>
      exact ⟨ihA, fun _ => ihB ⟨by omega, by omega⟩, ihpa, by show (2 : Nat) ≤ 4; decide⟩
    | computeB hpc =>
      exact ⟨ihA, fun _ => ihB ⟨by omega, by omega⟩, ihpa, by show (3 : Nat) ≤ 4; decide⟩
    | releaseB hpc =>
      refine ⟨fun hc => ?_, fun hc => absurd hc (by simp [inCritical]), ihpa,
        by show (4 : Nat) ≤ 4; decide⟩
      have h1 := ihB ⟨by omega, by omega⟩
      have h2 := ihA hc
      rw [h1] at h2
      exact absurd h2 (by simp)

/-- C9: in every reachable state of the serving subsystem, the two handler
tasks (each a `/prove` or `/verify` request, both of which acquire the one
shared circuit guard before touching shared state) are never simultaneously
inside their critical sections, and whenever one task is poised to load the
witness — it has just acquired the guard — the other has either not yet
acquired the guard or has fully completed its prove/verify call and released
it. -/
theorem serve_mutual_exclusion (s : SrvState) (h : SrvReachable s) :
    ¬(inCritical s.pcA ∧ inCritical s.pcB) ∧
    (s.pcA = 1 → s.pcB = 0 ∨ s.pcB = 4) ∧
    (s.pcB = 1 → s.pcA = 0 ∨ s.pcA = 4) := by
  obtain ⟨hA, hB, hpa, hpb⟩ := srv_inv_of_reachable h
  refine ⟨?_, ?_, ?_⟩
  · rintro ⟨hca, hcb⟩
    have h1 := hA hca
    have h2 := hB hcb
    rw [h1] at h2
    exact absurd h2 (by simp)
  · intro hpc
    by_contra hcon
    push_neg at hcon
    obtain ⟨hc1, hc2⟩ := hcon
    have h1 := hA ⟨by omega, by omega⟩
    have h2 := hB ⟨by omega, by omega⟩
    rw [h1] at h2
    exact absurd h2 (by simp)
  · intro hpc
    by_contra hcon
    push_neg at hcon
    obtain ⟨hc1, hc2⟩ := hcon
    have h1 := hB ⟨by omega, by omega⟩
    have h2 := hA ⟨by omega, by omega⟩
    rw [h1] at h2
    exact absurd h2 (by simp)

/-- Witness for C9 at the reachable state in which request A has just
acquired the circuit guard (about to load the witness) and request B has not
started. -/
theorem serve_mutual_exclusion_witness :
    ¬(inCritical (SrvState.mk 1 0 (some true)).pcA ∧
        inCritical (SrvState.mk 1 0 (some true)).pcB) ∧
    ((SrvState.mk 1 0 (some true)).pcA = 1 →
        (SrvState.mk 1 0 (some true)).pcB = 0 ∨
        (SrvState.mk 1 0 (some true)).pcB = 4) ∧
    ((SrvState.mk 1 0 (some true)).pcB = 1 →
        (SrvState.mk 1 0 (some true)).pcA = 0 ∨
        (SrvState.mk 1 0 (some true)).pcA = 4) :=
  serve_mutual_exclusion ⟨1, 0, some true⟩
    (SrvReachable.step SrvReachable.init (SrvStep.acquireA ⟨0, 0, none⟩ rfl rfl))

end Expander
